import Mathlib

set_option maxHeartbeats 1000000

/-!
A shallow embedding of the commit-message transformation core of the
Jira-Commit-Message VS Code extension (src/extension.ts), together with
theorems settling the specification claims about it.

JavaScript regular expressions are embedded as a small AST (`Regex`) with a
priority-ordered backtracking matcher (`mall`) that mirrors the relevant
ECMAScript semantics: leftmost match, greedy quantifiers with backtracking,
numbered capture groups, `String.prototype.replace` with dollar-expansion in
replacement strings, and `new RegExp` compilation of pattern source text
(`parseJSRegex`, covering the syntax the extension produces). Recursion is
fuel-based and structural, so every function evaluates inside the kernel; the
constant fuel is far larger than any recursion depth reachable by the inputs
considered here. In template strings the brace characters are written with
the escapes \x7b and \x7d.
-/

/-- ECMAScript WhiteSpace and LineTerminator characters (the class \s). -/
def jsSpaceChar (c : Char) : Bool :=
  c == ' ' || c == '\t' || c == '\n' || c == '\r' || c.toNat == 11 || c.toNat == 12 ||
  c.toNat == 0xa0 || c.toNat == 0x1680 ||
  (decide (0x2000 ≤ c.toNat) && decide (c.toNat ≤ 0x200a)) ||
  c.toNat == 0x2028 || c.toNat == 0x2029 || c.toNat == 0x202f || c.toNat == 0x205f ||
  c.toNat == 0x3000 || c.toNat == 0xfeff

/-- ECMAScript LineTerminator characters (not matched by the dot). -/
def jsLineTerminator (c : Char) : Bool :=
  c == '\n' || c == '\r' || c.toNat == 0x2028 || c.toNat == 0x2029

/-- Single-character matchers appearing in the patterns the extension uses. -/
inductive CharCls where
  | chr (c : Char)
  | dot
  | digit
  | space
  | notChr (c : Char)
  | oneOf (cs : List Char)
deriving DecidableEq

def CharCls.test : CharCls → Char → Bool
  | .chr a, c => c == a
  | .dot, c => !(jsLineTerminator c)
  | .digit, c => c.isDigit
  | .space, c => jsSpaceChar c
  | .notChr a, c => c != a
  | .oneOf cs, c => cs.contains c

/-- Regular-expression AST: empty word, character class, concatenation,
greedy star and numbered capture group. This covers every pattern the
extension compiles. -/
inductive Regex where
  | eps
  | cls (k : CharCls)
  | cat (a b : Regex)
  | star (a : Regex)
  | group (n : Nat) (a : Regex)
deriving DecidableEq

/-- Capture environment: group number to captured characters, most recent
binding first (lookup returns the most recent one, as JS overwrites). -/
abbrev Caps := List (Nat × List Char)

/-- All ways a regex can match a prefix of the input, in the backtracking
priority order of ECMAScript (greedy: longer iterations first). Each result
is the remaining input together with the captures. Fuel is structural so the
function evaluates in the kernel; 1000 exceeds any reachable depth here. A
star iteration whose body consumed nothing terminates the loop, as in JS. -/
def mall : Nat → Regex → List Char → Caps → List (List Char × Caps)
  | 0, _, _, _ => []
  | fuel+1, r, s, caps =>
    match r with
    | .eps => [(s, caps)]
    | .cls k =>
      match s with
      | [] => []
      | c :: rest => if k.test c then [(rest, caps)] else []
    | .cat a b => (mall fuel a s caps).flatMap fun sc => mall fuel b sc.1 sc.2
    | .group n a =>
      (mall fuel a s caps).map fun sc => (sc.1, (n, s.take (s.length - sc.1.length)) :: sc.2)
    | .star a =>
      ((mall fuel a s caps).filter fun sc => decide (sc.1.length < s.length)).flatMap
        (fun sc => mall fuel (.star a) sc.1 sc.2) ++ [(s, caps)]

def matchFuel : Nat := 1000

/-- A compiled JS regex: optional leading input-start anchor, body, and the
number of capture groups (needed for replacement-string expansion). -/
structure JSRegex where
  anchored : Bool
  re : Regex
  ngroups : Nat
deriving DecidableEq

/-- The data of one successful match: text before the match, the matched
text, the text after it, and the captures. -/
structure MatchResult where
  before : List Char
  matched : List Char
  after : List Char
  caps : Caps
deriving DecidableEq

/-- Leftmost search: try to match at each position, earliest position wins,
and at a position the first result in priority order wins. -/
def searchFrom (re : Regex) (pre s : List Char) : Option MatchResult :=
  match (mall matchFuel re s []).head? with
  | some sc => some ⟨pre.reverse, s.take (s.length - sc.1.length), sc.1, sc.2⟩
  | none =>
    match s with
    | [] => none
    | c :: cs => searchFrom re (c :: pre) cs

/-- JS regex search (RegExp.prototype.exec on a string, no global flag):
anchored patterns only try position zero. -/
def jsSearch (re : JSRegex) (s : String) : Option MatchResult :=
  if re.anchored then
    match (mall matchFuel re.re s.data []).head? with
    | some sc => some ⟨[], s.data.take (s.data.length - sc.1.length), sc.1, sc.2⟩
    | none => none
  else searchFrom re.re [] s.data

/-- RegExp.prototype.test. -/
def jsTest (re : JSRegex) (s : String) : Bool :=
  (jsSearch re s).isSome

/-- Expansion of a replacement string: dollar-dollar, dollar-ampersand and
single-digit group references are interpreted as in ECMAScript (a group
reference beyond the pattern's group count stays literal; a participating
group lookup that is absent yields the empty string). -/
def expandRep (m : MatchResult) (ngroups : Nat) : List Char → List Char
  | [] => []
  | '$' :: '$' :: rest => '$' :: expandRep m ngroups rest
  | '$' :: '&' :: rest => m.matched ++ expandRep m ngroups rest
  | '$' :: c :: rest =>
    if c.isDigit && decide (1 ≤ c.toNat - 48) && decide (c.toNat - 48 ≤ ngroups) then
      ((m.caps.lookup (c.toNat - 48)).getD []) ++ expandRep m ngroups rest
    else '$' :: expandRep m ngroups (c :: rest)
  | c :: rest => c :: expandRep m ngroups rest

/-- String.prototype.replace with a non-global regex: replace the first
match, expanding the replacement string. -/
def jsReplace (s : String) (re : JSRegex) (rep : String) : String :=
  match jsSearch re s with
  | none => s
  | some m => ⟨m.before ++ expandRep m re.ngroups rep.data ++ m.after⟩

/-- Split around the first occurrence of a literal substring. -/
def findSub (s pat : List Char) : Option (List Char × List Char) :=
  if pat.isPrefixOf s then some ([], s.drop pat.length)
  else
    match s with
    | [] => none
    | c :: cs => (findSub cs pat).map fun pr => (c :: pr.1, pr.2)

/-- String.prototype.replace with a string pattern: replace the first
occurrence; the replacement string still undergoes dollar-expansion (with no
capture groups). -/
def jsReplaceStrPat (s pat rep : String) : String :=
  match findSub s.data pat.data with
  | none => s
  | some pr => ⟨pr.1 ++ expandRep ⟨pr.1, pat.data, pr.2, []⟩ 0 rep.data ++ pr.2⟩

/-- String.prototype.replace with a global regex: replace every match,
scanning left to right, advancing one character after an empty match. -/
def jsReplaceGlobalL (re : JSRegex) (rep : List Char) : Nat → List Char → List Char
  | 0, s => s
  | fuel+1, s =>
    match searchFrom re.re [] s with
    | none => s
    | some m =>
      m.before ++ expandRep m re.ngroups rep ++
        (match m.matched, m.after with
         | [], [] => []
         | [], c :: cs => c :: jsReplaceGlobalL re rep fuel cs
         | _ :: _, rest => jsReplaceGlobalL re rep fuel rest)

def jsReplaceGlobal (s : String) (re : JSRegex) (rep : String) : String :=
  ⟨jsReplaceGlobalL re rep.data (s.data.length + 1) s.data⟩

/-- String.prototype.trim (both ends, the ECMAScript whitespace set). -/
def jsTrim (s : String) : String :=
  ⟨((s.data.dropWhile jsSpaceChar).reverse.dropWhile jsSpaceChar).reverse⟩

/-- Stringification of a possibly-undefined JS string value, as performed by
template literals and by replace when handed undefined. -/
def jsOrUndefined : Option (List Char) → String
  | some cs => ⟨cs⟩
  | none => "undefined"

def parseFuel : Nat := 1000

/-- Recursive-descent parser for the regex source syntax the extension
produces for new RegExp: literal characters, the escapes backslash-d and
backslash-s, an escaped non-alphanumeric character as a literal, the dot,
parenthesized capture groups numbered in order of the opening parenthesis,
and the greedy postfix star and plus. Mode true parses a sequence (until the
end or an unmatched closing parenthesis), mode false parses one atom.
Anything else (alternation, classes, quantifier braces, stray metacharacters,
a trailing backslash) fails, modelling a SyntaxError for the unsupported
part. Returns the parsed regex, the next group number and the rest. -/
def parseP : Nat → Bool → List Char → Nat → Option (Regex × Nat × List Char)
  | 0, _, _, _ => none
  | fuel+1, true, s, g =>
    match s with
    | [] => some (.eps, g, [])
    | ')' :: _ => some (.eps, g, s)
    | _ =>
      match parseP fuel false s g with
      | none => none
      | some (a, g1, rest1) =>
        let step : Regex × List Char :=
          match rest1 with
          | '*' :: r => (.star a, r)
          | '+' :: r => (.cat a (.star a), r)
          | r => (a, r)
        match parseP fuel true step.2 g1 with
        | none => none
        | some (b, g2, rest2) => some (.cat step.1 b, g2, rest2)
  | fuel+1, false, s, g =>
    match s with
    | [] => none
    | '(' :: rest =>
      match parseP fuel true rest (g+1) with
      | some (body, g1, ')' :: rest1) => some (.group g body, g1, rest1)
      | _ => none
    | '\\' :: c :: rest =>
      if c == 'd' then some (.cls .digit, g, rest)
      else if c == 's' then some (.cls .space, g, rest)
      else if c.isAlphanum then none
      else some (.cls (.chr c), g, rest)
    | ['\\'] => none
    | '.' :: rest => some (.cls .dot, g, rest)
    | c :: rest =>
      if c == '*' || c == '+' || c == '?' || c == '|' || c == '[' || c == ']' ||
         c == '^' || c == '$' || c == ')' then none
      else some (.cls (.chr c), g, rest)

/-- new RegExp on pattern source text: a leading caret anchors the pattern,
the body must parse completely. Failure models a thrown SyntaxError. -/
def parseJSRegex (s : String) : Option JSRegex :=
  let split : Bool × List Char :=
    match s.data with
    | '^' :: r => (true, r)
    | r => (false, r)
  match parseP parseFuel true split.2 1 with
  | some (re, g, []) => some ⟨split.1, re, g - 1⟩
  | _ => none

/-- The literal placeholder token "dollar-brace prefix brace" of the message
format template. -/
def tokenPfx : String := "$\x7bprefix\x7d"

/-- The literal placeholder token "dollar-brace message brace" of the message
format template. -/
def tokenMsg : String := "$\x7bmessage\x7d"

/-- The regex literal used by getExtensionConfig to find the first
parenthesized group: backslash-( then a captured nonempty run of
non-closing-parenthesis characters then backslash-). -/
def firstParenGroupRegex : JSRegex :=
  ⟨false,
    .cat (.cls (.chr '('))
      (.cat (.group 1 (.cat (.cls (.notChr ')')) (.star (.cls (.notChr ')')))))
        (.cls (.chr ')'))),
    1⟩

/-- The global regex literal matching a square bracket. -/
def squareBracketRegex : JSRegex := ⟨false, .cls (.oneOf ['[', ']']), 0⟩

/-- The global regex literal matching a dollar sign. -/
def dollarRegex : JSRegex := ⟨false, .cls (.chr '$'), 0⟩

/-- The derivation of the outdated-prefix pattern source string performed by
getExtensionConfig (src/extension.ts lines 158 to 164): take the first
parenthesized group's inner text of the raw prefix pattern (the whole raw
pattern when there is none), substitute the placeholder tokens, then escape
every square bracket and then every dollar sign in the resulting string. -/
def deriveOutdatedPattern (tagPattern msgFormat : String) : String :=
  let m := jsSearch firstParenGroupRegex tagPattern
  let prefixPatternText : String :=
    match m with
    | some mm => jsOrUndefined (mm.caps.lookup 1)
    | none => tagPattern
  jsReplaceGlobal
    (jsReplaceGlobal
      (jsReplaceStrPat (jsReplaceStrPat msgFormat tokenPfx ("(" ++ prefixPatternText ++ ")"))
        tokenMsg "(.*)")
      squareBracketRegex "\\$&")
    dollarRegex "\\$"

/-- The resolved configuration (interface ExtensionConfig of the source). -/
structure ExtensionConfig where
  commitMessagePrefixPattern : JSRegex
  commitMessageFormat : String
  gitHeadWatchInterval : Nat
  outdatedPrefixPattern : JSRegex
deriving DecidableEq

/-- getExtensionConfig, parameterized by the raw settings values it reads
(commitMessagePrefixPattern, commitMessageFormat, gitHeadWatchInterval).
Compiles the raw pattern and the derived outdated pattern; a compilation
failure models the RegExp constructor throwing. -/
def getExtensionConfig (tagPattern msgFormat : String) (interval : Nat) :
    Except String ExtensionConfig :=
  match parseJSRegex tagPattern, parseJSRegex (deriveOutdatedPattern tagPattern msgFormat) with
  | some p, some o => .ok ⟨p, msgFormat, interval, o⟩
  | _, _ => .error "Invalid regular expression"

/-- The already-correctly-tagged fast-path regex built by getCommitMessage:
new RegExp of caret backslash-[ then the extracted branch text then
backslash-] backslash-s. -/
def fastPathRegex (pfx : String) : Option JSRegex :=
  parseJSRegex ("^\\[" ++ pfx ++ "\\]\\s")

/-- Step five of getCommitMessage before rendering: remove the first match
of the outdated pattern (replacement by the empty string) and trim. -/
def stripOutdated (config : ExtensionConfig) (currentMessage : String) : String :=
  jsTrim (jsReplace currentMessage config.outdatedPrefixPattern "")

/-- The final rendering of getCommitMessage: substitute the first
placeholder-token occurrences in the format by the extracted branch text and
the stripped message. -/
def renderMessage (fmt pfx body : String) : String :=
  jsReplaceStrPat (jsReplaceStrPat fmt tokenPfx pfx) tokenMsg body

/-- getCommitMessage (src/extension.ts lines 198 to 227), the pure message
computation: non-matching branch returns the message unchanged; the first
capture of the branch match is the tag text (undefined stringifies to the
word undefined, as in JS); a message already starting with the bracketed tag
and a whitespace character is returned unchanged; otherwise the outdated
match is removed, the result trimmed, and the format rendered. The error
case models new RegExp throwing on an uncompilable fast-path pattern. -/
def getCommitMessage (branch currentMessage : String) (config : ExtensionConfig) :
    Except String String :=
  if !(jsTest config.commitMessagePrefixPattern branch) then .ok currentMessage
  else
    match jsSearch config.commitMessagePrefixPattern branch with
    | none => .ok currentMessage
    | some prefixMatch =>
      let pfx := jsOrUndefined (prefixMatch.caps.lookup 1)
      match fastPathRegex pfx with
      | none => .error "Invalid regular expression"
      | some prefixRegex =>
        if jsTest prefixRegex currentMessage then .ok currentMessage
        else .ok (renderMessage config.commitMessageFormat pfx (stripOutdated config currentMessage))

/-- The commit input box of a repository (only its text value matters). -/
structure InputBox where
  value : String
deriving DecidableEq

/-- A git HEAD reference; its branch name may be absent. -/
structure GitRef where
  name : Option String
deriving DecidableEq

/-- Repository state: the optional HEAD reference. -/
structure RepoState where
  HEAD : Option GitRef
deriving DecidableEq

/-- The repository handle: state plus the mutable message buffer. -/
structure Repository where
  state : RepoState
  inputBox : InputBox
deriving DecidableEq

/-- Convenience constructor for a repository with an optional branch name. -/
def mkRepo (b : Option String) (msg : String) : Repository :=
  ⟨⟨b.map fun n => ⟨some n⟩⟩, ⟨msg⟩⟩

/-- The branch expression of updateCommitMessage: HEAD's name, or the empty
string when HEAD or its name is absent. -/
def branchName (repo : Repository) : String :=
  (repo.state.HEAD.bind GitRef.name).getD ""

/-- extractCurrentMessage (src/extension.ts lines 191 to 196): replace the
first outdated-pattern match of the input box by capture group two. -/
def extractCurrentMessage (repo : Repository) (config : ExtensionConfig) : String :=
  jsReplace repo.inputBox.value config.outdatedPrefixPattern "$2"

/-- updateCommitMessage (src/extension.ts lines 174 to 189), one
synchronization pass: no-op on an empty branch name; otherwise extract the
current message when none was passed in, compute the new message, and write
it to the input box only when it differs. The result is the repository after
the pass; an error models an exception escaping the pass. -/
def updateCommitMessage (repo : Repository) (config : ExtensionConfig)
    (currentMessage : Option String) : Except String Repository :=
  let branch := branchName repo
  if branch = "" then .ok repo
  else
    let cm :=
      match currentMessage with
      | none => extractCurrentMessage repo config
      | some m => m
    match getCommitMessage branch cm config with
    | .error e => .error e
    | .ok updatedMessage =>
      .ok (if repo.inputBox.value ≠ updatedMessage then { repo with inputBox := ⟨updatedMessage⟩ } else repo)

/-- RepositoryWatcher.safeUpdateCommitMessage (lines 106 to 112): run one
pass inside a try-catch; on an exception the repository is left as it was
and an error line is appended to the log. -/
def safeUpdateCommitMessage (repo : Repository) (config : ExtensionConfig)
    (currentMessage : Option String) (log : List String) : Repository × List String :=
  match updateCommitMessage repo config currentMessage with
  | .ok r => (r, log)
  | .error e => (repo, log ++ ["Error updating commit message: " ++ e])

/-- A sequence of watcher-triggered passes (each trigger optionally carries
an explicit current message, as the config-update path does). -/
def runPasses (config : ExtensionConfig) (repo : Repository)
    (triggers : List (Option String)) (log : List String) : Repository × List String :=
  triggers.foldl (fun p t => safeUpdateCommitMessage p.1 config t p.2) (repo, log)

/-- RepositoryWatcher.updateConfig (lines 120 to 131), restricted to its
effect on the message buffer: extract the original message under the old
configuration, then run a safe pass under the new configuration with that
message (the watcher re-creation on an interval change touches no buffer). -/
def updateConfig (repo : Repository) (oldConfig newConfig : ExtensionConfig)
    (log : List String) : Repository × List String :=
  let currentMessage := extractCurrentMessage repo oldConfig
  safeUpdateCommitMessage repo newConfig (some currentMessage) log

/-- The manual update-message command (activate, lines 284 to 303): for every
known repository in order, run one pass inside its own try-catch, logging
success or failure per repository. -/
def updateMessageCommand (config : ExtensionConfig) :
    List Repository → List String → List Repository × List String
  | [], log => ([], log)
  | repo :: rest, log =>
    match updateCommitMessage repo config none with
    | .ok r =>
      let p := updateMessageCommand config rest (log ++ ["Commit message updated via command."])
      (r :: p.1, p.2)
    | .error e =>
      let p := updateMessageCommand config rest (log ++ ["Error executing update command: " ++ e])
      (repo :: p.1, p.2)

/-- Resolve a configuration from raw settings and compute one message: the
composition the claims call computeMessage under a given configuration. -/
def computeWith (tagPattern msgFormat branch msg : String) : Except String String := do
  let cfg ← getExtensionConfig tagPattern msgFormat 1000
  getCommitMessage branch msg cfg

/-- Resolve a configuration from raw settings and run one full
synchronization pass on a repository. -/
def syncPass (tagPattern msgFormat : String) (repo : Repository) :
    Except String Repository := do
  let cfg ← getExtensionConfig tagPattern msgFormat 1000
  updateCommitMessage repo cfg none

/-- Resolve old and new configurations from raw settings and run the
config-update path on a repository. -/
def updateConfigPipeline (oldTagPattern newTagPattern msgFormat : String)
    (repo : Repository) : Except String (Repository × List String) := do
  let oldCfg ← getExtensionConfig oldTagPattern msgFormat 1000
  let newCfg ← getExtensionConfig newTagPattern msgFormat 1000
  pure (updateConfig repo oldCfg newCfg [])

/-- The configuration a raw-settings pair resolves to, for stating theorems
about concrete configurations (all uses below resolve successfully, which
the accompanying proofs check by evaluation). -/
def cfgOf (tagPattern msgFormat : String) : ExtensionConfig :=
  (getExtensionConfig tagPattern msgFormat 1000).toOption.getD
    ⟨⟨false, .eps, 0⟩, "", 0, ⟨false, .eps, 0⟩⟩

/-- The default raw prefix pattern of the extension settings. -/
def defaultTagPattern : String := "(ML-\\d+)-.*"

/-- The default raw message format of the extension settings. -/
def defaultMessageFormat : String := "[$\x7bprefix\x7d] $\x7bmessage\x7d"

/-- A message format in which the message placeholder precedes the tag
placeholder. -/
def swappedMessageFormat : String := "$\x7bmessage\x7d - $\x7bprefix\x7d"

/-- A raw prefix pattern with no capture group. -/
def noGroupTagPattern : String := "ML-\\d+-.*"

/-- Escape the square brackets and dollar signs of a template, leaving the
two placeholder tokens intact (helper for the spec-modelled derivation). -/
def escapeTemplateOutsideTokens : Nat → List Char → List Char
  | 0, s => s
  | fuel+1, s =>
    if tokenPfx.data.isPrefixOf s then
      tokenPfx.data ++ escapeTemplateOutsideTokens fuel (s.drop tokenPfx.data.length)
    else if tokenMsg.data.isPrefixOf s then
      tokenMsg.data ++ escapeTemplateOutsideTokens fuel (s.drop tokenMsg.data.length)
    else
      match s with
      | [] => []
      | c :: cs =>
        (if c == '[' || c == ']' || c == '$' then ['\\', c] else [c]) ++
          escapeTemplateOutsideTokens fuel cs

/-- Literal first-occurrence substitution with no dollar-expansion, as the
spec's word substituting describes it. -/
def substFirst (s pat rep : String) : String :=
  match findSub s.data pat.data with
  | none => s
  | some pr => ⟨pr.1 ++ rep.data ++ pr.2⟩

/-- Modelled from the spec, for comparison with the source derivation: the
outdated-pattern derivation exactly as claim C5 reads section 4.1 step 2 of
the spec, escaping only the square brackets and dollar signs that remain
from the template and never characters belonging to the substituted
capture-group text, with substitution happening before escaping. -/
def deriveOutdatedPatternSpec (tagPattern msgFormat : String) : String :=
  let m := jsSearch firstParenGroupRegex tagPattern
  let prefixPatternText : String :=
    match m with
    | some mm => jsOrUndefined (mm.caps.lookup 1)
    | none => tagPattern
  substFirst
    (substFirst ⟨escapeTemplateOutsideTokens 1000 msgFormat.data⟩
      tokenPfx ("(" ++ prefixPatternText ++ ")"))
    tokenMsg "(.*)"

/-! ## Helper lemmas shared by several claim theorems -/

/-- A branch that fails the prefix-pattern test leaves getCommitMessage at
its first early return. -/
theorem getCommitMessage_of_test_false (cfg : ExtensionConfig) (branch msg : String)
    (h : jsTest cfg.commitMessagePrefixPattern branch = false) :
    getCommitMessage branch msg cfg = .ok msg := by
  unfold getCommitMessage
  rw [h]
  rfl

/-- Claim C1, counterexample: in step 5 of getCommitMessage the outdated
match is replaced by the empty string, not by its inner message group, so
for the default configuration, branch ML-42-x and current message
"[ML-7] Old work", getCommitMessage yields "[ML-42] " and not the claimed
"[ML-42] Old work". -/
theorem c1_counterexample :
    computeWith defaultTagPattern defaultMessageFormat "ML-42-x" "[ML-7] Old work" =
      .ok "[ML-42] " ∧
    ¬ ("[ML-42] " = "[ML-42] Old work") := ⟨rfl, by decide⟩

/-- Claim C1, amended: the stripping step inside getCommitMessage removes
the full matched outdated-tagged portion (replacement by the empty string);
the claimed result "[ML-42] Old work" is produced by the full
synchronization pass, whose caller first recovers the inner message group
via extractCurrentMessage (replacement by capture group two) and only then
calls getCommitMessage. -/
theorem c1_amended_pipeline_retags :
    syncPass defaultTagPattern defaultMessageFormat
        (mkRepo (some "ML-42-x") "[ML-7] Old work") =
      .ok (mkRepo (some "ML-42-x") "[ML-42] Old work") ∧
    extractCurrentMessage (mkRepo (some "ML-42-x") "[ML-7] Old work")
        (cfgOf defaultTagPattern defaultMessageFormat) = "Old work" ∧
    computeWith defaultTagPattern defaultMessageFormat "ML-42-x" "Old work" =
      .ok "[ML-42] Old work" ∧
    computeWith defaultTagPattern defaultMessageFormat "ML-42-x" "[ML-7] Old work" =
      .ok "[ML-42] " := ⟨rfl, rfl, rfl, rfl⟩

/-- Claim C3: the config-update path extracts the original untagged message
under the old configuration before recomputing under the new one, so a
prefix-pattern change from ML to BY on branch BY-9-x with message
"[ML-1] text" gives "[BY-9] text" and never the compounded message. -/
theorem c3_config_update_no_compounding :
    updateConfigPipeline defaultTagPattern "(BY-\\d+)-.*" defaultMessageFormat
        (mkRepo (some "BY-9-x") "[ML-1] text") =
      .ok (mkRepo (some "BY-9-x") "[BY-9] text", []) ∧
    ¬ ("[BY-9] text" = "[BY-9] [ML-1] text") := ⟨rfl, by decide⟩

/-- Claim C4, counterexample: for a prefix pattern with no capture group the
branch match succeeds with an undefined first group, and getCommitMessage
does not return the message unchanged: the undefined value stringifies to
the word undefined and is rendered into the message. -/
theorem c4_counterexample :
    computeWith noGroupTagPattern defaultMessageFormat "ML-42-x" "hi" =
      .ok "[undefined] hi" ∧
    ¬ ("[undefined] hi" = "hi") := ⟨rfl, by decide⟩

/-- Claim C4, amended: when the branch matches but the match yields no first
capture group value, getCommitMessage proceeds with the literal string
"undefined" as the tag (the stringification of the undefined group): unless
the message already passes the fast-path test for that tag, it renders the
format with the word undefined; the null-match guard after the test is
unreachable and no unchanged-return occurs. -/
theorem c4_amended_undefined_tag :
    ∀ (cfg : ExtensionConfig) (branch msg : String),
      (jsSearch cfg.commitMessagePrefixPattern branch).isSome = true →
      (jsSearch cfg.commitMessagePrefixPattern branch).bind (fun m => m.caps.lookup 1) = none →
      getCommitMessage branch msg cfg =
        (match fastPathRegex "undefined" with
         | none => .error "Invalid regular expression"
         | some re =>
            if jsTest re msg then .ok msg
            else .ok (renderMessage cfg.commitMessageFormat "undefined"
              (stripOutdated cfg msg))) := by
  intro cfg branch msg h1 h2
  have ht : jsTest cfg.commitMessagePrefixPattern branch = true := h1
  obtain ⟨m, hm⟩ := Option.isSome_iff_exists.mp h1
  rw [hm] at h2
  simp only [Option.some_bind] at h2
  unfold getCommitMessage
  rw [ht, hm]
  simp only [Bool.not_true, Bool.false_eq_true, if_false]
  rw [show jsOrUndefined (m.caps.lookup 1) = "undefined" from by rw [h2]; rfl]

/-- Witness for the amended claim C4 at a concrete group-free pattern. -/
theorem c4_amended_witness :
    getCommitMessage "ML-42-x" "hi" (cfgOf noGroupTagPattern defaultMessageFormat) =
      .ok "[undefined] hi" := by
  rw [c4_amended_undefined_tag (cfgOf noGroupTagPattern defaultMessageFormat)
    "ML-42-x" "hi" (by decide) (by decide)]
  rfl

/-- Claim C5, counterexample: the derivation of the outdated-prefix pattern
does not escape only the brackets and dollar signs remaining from the
template; for a raw pattern whose capture-group text contains square
brackets, the code escapes those too, and so differs from the derivation the
claim describes. -/
theorem c5_counterexample :
    ¬ (deriveOutdatedPattern "([A-Z]+)-.*" defaultMessageFormat =
        deriveOutdatedPatternSpec "([A-Z]+)-.*" defaultMessageFormat) := by decide

/-- Claim C5, amended: substitution does happen before escaping, but the
escaping pass is applied to the whole substituted string, including any
bracket or dollar characters of the substituted capture-group text: for the
group text A-to-Z-plus the derived pattern has the class brackets escaped;
for group texts free of brackets and dollars (such as the default) the
result coincides with the derivation described by the spec. -/
theorem c5_amended_escape_after_subst :
    deriveOutdatedPattern "([A-Z]+)-.*" defaultMessageFormat = "\\[(\\[A-Z\\]+)\\] (.*)" ∧
    deriveOutdatedPatternSpec "([A-Z]+)-.*" defaultMessageFormat = "\\[([A-Z]+)\\] (.*)" ∧
    deriveOutdatedPattern defaultTagPattern defaultMessageFormat = "\\[(ML-\\d+)\\] (.*)" ∧
    deriveOutdatedPattern defaultTagPattern defaultMessageFormat =
      deriveOutdatedPatternSpec defaultTagPattern defaultMessageFormat :=
  ⟨rfl, rfl, rfl, rfl⟩

/-- Claim C6: with an empty branch name a synchronization pass is a no-op:
the repository (in particular its message buffer) is returned unchanged,
whatever the message and configuration. -/
theorem c6_empty_branch_noop :
    ∀ (repo : Repository) (cfg : ExtensionConfig) (cm : Option String),
      branchName repo = "" → updateCommitMessage repo cfg cm = .ok repo := by
  intro repo cfg cm h
  unfold updateCommitMessage
  rw [h]
  rfl

/-- Witness for claim C6: a repository with no HEAD. -/
theorem c6_witness :
    updateCommitMessage (mkRepo none "anything")
        (cfgOf defaultTagPattern defaultMessageFormat) none =
      .ok (mkRepo none "anything") :=
  c6_empty_branch_noop (mkRepo none "anything") _ none rfl

/-- Claim C7: a branch that does not match the configured prefix pattern
leaves the message byte-for-byte unchanged, for every configuration and
message. -/
theorem c7_nonmatching_branch_unchanged :
    ∀ (cfg : ExtensionConfig) (branch msg : String),
      jsTest cfg.commitMessagePrefixPattern branch = false →
      getCommitMessage branch msg cfg = .ok msg :=
  fun cfg branch msg h => getCommitMessage_of_test_false cfg branch msg h

/-- Witness for claim C7: the branch main under the default configuration. -/
theorem c7_witness :
    getCommitMessage "main" "hello" (cfgOf defaultTagPattern defaultMessageFormat) =
      .ok "hello" :=
  c7_nonmatching_branch_unchanged (cfgOf defaultTagPattern defaultMessageFormat)
    "main" "hello" (by decide)

/-- Claim C8: under the default configuration, branch ML-42-fix-bug and
message "Fix the bug" give "[ML-42] Fix the bug"; every message beginning
with the bracketed tag and a space is returned unchanged by the fast path;
re-running on the first result returns it identically. -/
theorem c8_default_example_and_fastpath :
    computeWith defaultTagPattern defaultMessageFormat "ML-42-fix-bug" "Fix the bug" =
      .ok "[ML-42] Fix the bug" ∧
    (∀ rest : String,
      computeWith defaultTagPattern defaultMessageFormat "ML-42-fix-bug"
          ("[ML-42] " ++ rest) =
        .ok ("[ML-42] " ++ rest)) ∧
    computeWith defaultTagPattern defaultMessageFormat "ML-42-fix-bug"
        "[ML-42] Fix the bug" =
      .ok "[ML-42] Fix the bug" :=
  ⟨rfl, fun _ => rfl, rfl⟩

/-- Claim C9: a failing pass is caught at the pass boundary: the repository
state is kept, the failure only logged; passes after a failing one still
run (running a concatenation of triggers is running the first part and then
the rest on its outcome); and the manual command processes every repository
independently, a failing repository keeping its state without blocking the
others. -/
theorem c9_errors_caught_at_boundary :
    (∀ (repo : Repository) (cfg : ExtensionConfig) (cm : Option String)
        (log : List String) (e : String),
        updateCommitMessage repo cfg cm = .error e →
        safeUpdateCommitMessage repo cfg cm log =
          (repo, log ++ ["Error updating commit message: " ++ e])) ∧
    (∀ (cfg : ExtensionConfig) (repo : Repository) (ts1 ts2 : List (Option String))
        (log : List String),
        runPasses cfg repo (ts1 ++ ts2) log =
          runPasses cfg (runPasses cfg repo ts1 log).1 ts2 (runPasses cfg repo ts1 log).2) ∧
    (∀ (cfg : ExtensionConfig) (repos : List Repository) (log : List String),
        (updateMessageCommand cfg repos log).1 =
          repos.map fun repo =>
            match updateCommitMessage repo cfg none with
            | .ok r => r
            | .error _ => repo) := by
  refine ⟨?_, ?_, ?_⟩
  · intro repo cfg cm log e h
    unfold safeUpdateCommitMessage
    rw [h]
  · intro cfg repo ts1 ts2 log
    unfold runPasses
    rw [List.foldl_append]
  · intro cfg repos
    induction repos with
    | nil => intro log; rfl
    | cons r rs ih =>
      intro log
      unfold updateMessageCommand
      cases hu : updateCommitMessage r cfg none with
      | ok rr => simp only [hu, List.map_cons]; rw [ih]
      | error e => simp only [hu, List.map_cons]; rw [ih]

/-- Witness for claim C9: a pass whose fast-path regex compilation fails (an
extracted tag with unbalanced parentheses) is caught and logged, the
repository kept unchanged. -/
theorem c9_witness :
    safeUpdateCommitMessage (mkRepo (some "((x") "m")
        (cfgOf "(.*)x" defaultMessageFormat) none [] =
      (mkRepo (some "((x") "m",
        ["Error updating commit message: Invalid regular expression"]) :=
  c9_errors_caught_at_boundary.1 (mkRepo (some "((x") "m")
    (cfgOf "(.*)x" defaultMessageFormat) none [] "Invalid regular expression" rfl

/-- Claim C10: extractCurrentMessage replaces the first outdated-pattern
match by capture group two (hard-coded): an input with no match is returned
unchanged; under the default format (tag before message) it recovers the
untagged message; under a format with the message placeholder before the tag
placeholder, group two is the tag, so it returns the tag value instead. -/
theorem c10_extract_replaces_with_group_two :
    (∀ (repo : Repository) (cfg : ExtensionConfig),
        jsSearch cfg.outdatedPrefixPattern repo.inputBox.value = none →
        extractCurrentMessage repo cfg = repo.inputBox.value) ∧
    extractCurrentMessage (mkRepo (some "b") "[ML-1] text")
        (cfgOf defaultTagPattern defaultMessageFormat) = "text" ∧
    extractCurrentMessage (mkRepo (some "b") "text - ML-1")
        (cfgOf defaultTagPattern swappedMessageFormat) = "ML-1" := by
  refine ⟨?_, rfl, rfl⟩
  intro repo cfg h
  unfold extractCurrentMessage jsReplace
  rw [h]

/-- Witness for claim C10 at an input the outdated pattern does not match. -/
theorem c10_witness :
    extractCurrentMessage (mkRepo (some "b") "plain")
        (cfgOf defaultTagPattern defaultMessageFormat) = "plain" :=
  c10_extract_replaces_with_group_two.1 (mkRepo (some "b") "plain")
    (cfgOf defaultTagPattern defaultMessageFormat) (by decide)
